import Mathlib

/-!
Shallow embedding of the iocost-benchmarks ingestion pipeline
(`src/bin/import-results.rs`, and the earlier variant `src/bin/download.rs`).

External collaborators are modelled as function parameters:
  * the HTTP client (`reqwest::blocking::get`) as `get : String → Except String HttpResponse`
    (the `Except.error` case is a transport error; an HTTP response carries its
    status code and body bytes, and — exactly as in the source, which never calls
    `error_for_status` — the status code is not inspected by `download_url`);
  * the md5 digest as an opaque function `md5 : String → String` (bytes are
    modelled as `String`);
  * the link detector (`linkify::LinkFinder::links`) as
    `findLinks : String → List String`, returning the detected links in order of
    appearance in the text;
  * the external `resctl-bench` binary as functions producing a `ToolOutput`
    (exit status, stdout, stderr).

The filesystem and the git repository are modelled by the explicit state
`World` threaded through the pipeline.  `File::create` always succeeds (the
working directory always exists); `fs::create_dir` fails when the parent
directory does not exist or the directory already exists, and the source
discards that result (`.ok()`); `fs::rename` fails when the source file is
missing or the destination's parent directory does not exist, and the
source's `?` propagates that error, aborting the run.  Rust's
`char::is_whitespace` (Unicode White_Space) is modelled by Lean's
`Char.isWhitespace`; the claims only involve ASCII whitespace, where the two
agree.
-/

namespace ImportResults

/-- The two allowed URL origins, from `src/bin/import-results.rs` lines 8-11. -/
def ALLOWED_PREFIXES : List String :=
  ["https://github.com/kov/iocost-benchmarks/files/",
   "https://iocost-submit.s3.eu-west-1.amazonaws.com/"]

/-- Model of `is_url_whitelisted` (lines 13-21): true iff the link starts with one of the
allowed origins.  Rust's `str::starts_with` is a literal, case-sensitive byte
prefix test, modelled as a character-list prefix test. -/
def is_url_whitelisted (link : String) : Bool :=
  ALLOWED_PREFIXES.any (fun p => p.data.isPrefixOf link.data)

/-- Rust `str::split_once` on character lists: split at the first occurrence of
`sep`, returning the parts before and after it, or `none` if `sep` does not
occur. -/
def splitOnceL (sep : List Char) : List Char → Option (List Char × List Char)
  | [] => none
  | c :: cs =>
    if sep.isPrefixOf (c :: cs) then some ([], (c :: cs).drop sep.length)
    else
      match splitOnceL sep cs with
      | some (pre, post) => some (c :: pre, post)
      | none => none

/-- Rust `str::split_once` on strings. -/
def splitOnce (s sep : String) : Option (String × String) :=
  match splitOnceL sep.data s.data with
  | some (pre, post) => some (⟨pre⟩, ⟨post⟩)
  | none => none

/-- Rust `str::split_whitespace` on character lists: maximal runs of
non-whitespace characters, in order; empty runs never appear.  `acc` holds the
current run, reversed. -/
def splitWsL : List Char → List Char → List (List Char)
  | [], acc => if acc.isEmpty then [] else [acc.reverse]
  | c :: cs, acc =>
    if c.isWhitespace then
      if acc.isEmpty then splitWsL cs [] else acc.reverse :: splitWsL cs []
    else splitWsL cs (c :: acc)

/-- The normalization applied to the model description (line 102-104 of
`import-results.rs`): `split_whitespace().collect::<Vec<&str>>().join("_")`,
i.e. collapse whitespace runs to single underscores and trim the ends. -/
def normalize_model_desc (desc : String) : String :=
  String.intercalate "_" ((splitWsL desc.data []).map (fun cs => (⟨cs⟩ : String)))

/-- Output of one invocation of the external `resctl-bench` subprocess
(`std::process::Output`: exit status, captured stdout, captured stderr). -/
structure ToolOutput where
  status : Nat
  stdout : String
  stderr : String
deriving DecidableEq, Repr

/-- Result of `get_normalized_model_name`: the source `panic!`s on a non-empty
stderr and `unwrap`s the two `split_once` calls, so the outcomes are a fatal
abort carrying the stderr text, a fatal abort from a failed parse, or the
normalized name. -/
inductive NameResult where
  | fatal (msg : String)
  | parseFatal
  | ok (name : String)
deriving DecidableEq, Repr

/-- Model of `get_normalized_model_name` (lines 85-105): run `resctl-bench --result
<filename> info`; abort if the subprocess wrote anything to stderr (the exit
status is never consulted); otherwise take stdout's first line, drop the
"label: " part, and normalize the rest. -/
def get_normalized_model_name (info : String → ToolOutput) (filename : String) :
    NameResult :=
  let output := info filename
  if output.stderr ≠ "" then .fatal output.stderr
  else
    match splitOnce output.stdout "\n" with
    | none => .parseFatal
    | some (firstLine, _) =>
      match splitOnce firstLine ": " with
      | none => .parseFatal
      | some (_, desc) => .ok (normalize_model_desc desc)

/-- An HTTP response as delivered by the HTTP client: status code and raw body
bytes.  `reqwest::blocking::get` only fails on transport errors; a response
with a non-success status is still delivered as `Except.ok`. -/
structure HttpResponse where
  status : Nat
  bytes : String
deriving DecidableEq, Repr

/-- One commit in the model git repository: fresh id, parent id, message, and
the paths that were newly staged (added to the index during this run) when the
tree was written. -/
structure GitCommit where
  id : Nat
  parent : Nat
  message : String
  stagedPaths : List String
deriving DecidableEq, Repr

/-- The observable state threaded through a pipeline run: the files present in
the checkout, the directories created, the paths passed to `index.add_path`
(in call order), the merge invocations (merged-file path, result files passed
on the command line), the commits, the branch refs (an association list, most
recent binding first — a force-update shadows the old binding), the name of the
branch currently checked out as HEAD, the refspecs pushed, and the next fresh
commit id. -/
structure World where
  files : List String
  dirs : List String
  staged : List String
  merges : List (String × List String)
  commits : List GitCommit
  branches : List (String × Nat)
  headBranch : String
  pushes : List String
  nextId : Nat
deriving DecidableEq, Repr

/-- Resolve a branch name to the commit id it points at (first binding wins). -/
def lookupBranch (branches : List (String × Nat)) (name : String) : Option Nat :=
  match branches with
  | [] => none
  | (n, cid) :: rest => if n = name then some cid else lookupBranch rest name

/-- Create-or-overwrite a file: file sets keep one entry per path, in order of
first creation. -/
def insertFile (path : String) (files : List String) : List String :=
  if path ∈ files then files else files ++ [path]

/-- Model of `fs::rename`: the source path disappears, the destination appears. -/
def renameFile (src dst : String) (files : List String) : List String :=
  insertFile dst (files.erase src)

/-- Parent directory of a path as a character list: everything before the last
path separator, or the empty list (the working directory) when the path has no
separator. -/
def parentDirL (cs : List Char) : List Char :=
  match cs.reverse.dropWhile (fun c => c ≠ '/') with
  | [] => []
  | _ :: rest => rest.reverse

/-- Parent directory of a path: everything before the last path separator, or
"" (the working directory, which always exists) when the path has none. -/
def parentDir (s : String) : String := ⟨parentDirL s.data⟩

/-- Model of `fs::create_dir`: the directory is created iff its parent
directory exists and the path does not already exist; otherwise the call
errors (ENOENT or EEXIST) and the directory set is unchanged.  The source
discards the result (`.ok()`), so only the directory set comes back. -/
def create_dir (path : String) (dirs : List String) : List String :=
  if (parentDir path = "" ∨ parentDir path ∈ dirs) ∧ path ∉ dirs then
    dirs ++ [path]
  else dirs

/-- Model of `download_url` (lines 67-83): fetch the URL, and on success write the body
bytes to `result-{md5(bytes)}.json.gz` in the current working directory,
returning that filename.  The HTTP status code of a delivered response is never
inspected. -/
def download_url (get : String → Except String HttpResponse)
    (md5 : String → String) (url : String) (w : World) :
    Except String (World × String) :=
  match get url with
  | .error e => .error e
  | .ok response =>
    let contents := response.bytes
    let filename := "result-" ++ md5 contents ++ ".json.gz"
    .ok ({ w with files := insertFile filename w.files }, filename)

/-- Does `f` match the glob pattern `{dir}/result-*.json.gz`?  The glob `*`
matches any (possibly empty) run of characters not containing the path
separator `/`. -/
def matchesResultPattern (dir f : String) : Bool :=
  let pre := (dir ++ "/result-").data
  let suf := ".json.gz".data
  let cs := f.data
  pre.isPrefixOf cs && suf.isSuffixOf cs &&
    decide (pre.length + suf.length ≤ cs.length) &&
    ((cs.drop pre.length).take (cs.length - pre.length - suf.length)).all
      (fun c => c ≠ '/')

/-- The files the `glob` call in `merge_results_in_dir` enumerates, in the
filesystem's order (modelled as creation order). -/
def globResults (files : List String) (dir : String) : List String :=
  files.filter (matchesResultPattern dir)

/-- Result of `merge_results_in_dir`: fatal abort on non-empty stderr, or the
updated world and the merged file's path. -/
inductive MergeStep where
  | fatal (msg : String)
  | ok (w : World) (mergedPath : String)
deriving DecidableEq, Repr

/-- Model of `merge_results_in_dir` (lines 107-136): glob `{dir}/result-*.json.gz`, run
`resctl-bench --result {dir}/merged-results.json.gz merge <files...>`, abort if
the subprocess wrote anything to stderr (exit status never consulted), else the
merged file now exists in the directory. -/
def merge_results_in_dir (mergeTool : List String → ToolOutput) (dir : String)
    (w : World) : MergeStep :=
  let results := globResults w.files dir
  let mergedPath := dir ++ "/merged-results.json.gz"
  let arguments := ["--result", mergedPath, "merge"] ++ results
  let output := mergeTool arguments
  if output.stderr ≠ "" then .fatal output.stderr
  else
    .ok { w with files := insertFile mergedPath w.files,
                 merges := w.merges ++ [(mergedPath, results)] } mergedPath

/-- The triggering issue, as read from the event payload (`issue.id`,
`issue.locked`, `issue.state`, `issue.body`). -/
structure Issue where
  id : Nat
  locked : Bool
  state : String
  body : Option String
deriving DecidableEq, Repr

/-- The decoded event payload: `event_name`, `event.action`, the issue, and the
comment body when the payload has one. -/
structure Context where
  eventName : String
  action : String
  issue : Issue
  commentBody : Option String
deriving DecidableEq, Repr

/-- Result of `get_urls` (lines 23-65): `exitSuccess` models
`std::process::exit(0)` for a locked or non-open issue; `unhandledEvent` models
the `bail!` for an unrecognized action (an `Err` propagated out of `main`,
hence a non-zero exit); `missingContent` models the `.expect(...)` panic when
the resolved body field is absent; otherwise the accepted URLs. -/
inductive UrlsResult where
  | exitSuccess
  | unhandledEvent (eventName action : String)
  | missingContent
  | ok (urls : List String)
deriving DecidableEq, Repr

/-- The filtering loop of `get_urls` (lines 49-62): keep each detected link iff
it is whitelisted, preserving order and multiplicity. -/
def extract_urls : List String → List String
  | [] => []
  | link :: rest =>
    if is_url_whitelisted link then link :: extract_urls rest
    else extract_urls rest

/-- Model of `get_urls` (lines 23-65): exit 0 if the issue is locked or not open;
resolve the relevant body by action ("created" → comment body, "opened" →
issue body, "edited" → comment body for an `issue_comment` event, else issue
body, anything else → bail); then scan the body for links and keep the
whitelisted ones. -/
def get_urls (findLinks : String → List String) (context : Context) :
    UrlsResult :=
  if context.issue.locked ∨ context.issue.state ≠ "open" then .exitSuccess
  else
    match
      (match context.action with
       | "created" => some context.commentBody
       | "opened" => some context.issue.body
       | "edited" =>
         some (if context.eventName = "issue_comment" then context.commentBody
               else context.issue.body)
       | _ => none)
    with
    | none => .unhandledEvent context.eventName context.action
    | some none => .missingContent
    | some (some body) => .ok (extract_urls (findLinks body))

/-- Result of the per-URL loop of `main` (lines 151-164): `fail` models an
`Err` propagated by `?` (non-zero exit), `fatal` models a `panic!`, and `ok`
carries the updated world and the accumulated `directories_to_merge` vector.
In the `fail` and `fatal` cases the world reflects the effects already
performed when the run aborted. -/
inductive StepResult where
  | fail (msg : String) (w : World)
  | fatal (msg : String) (w : World)
  | ok (w : World) (dirsToMerge : List String)
deriving DecidableEq, Repr

/-- The per-URL loop of `main` (lines 151-164): for each URL in order,
download it, identify its model, try to create `database/{model}` (a failure —
parent directory missing or directory already present — is discarded by the
source via `.ok()`), then `fs::rename` the downloaded file into the directory:
if the destination's parent directory does not exist the rename errors and the
source's `?` aborts the run with that io error; otherwise the destination path
is staged and the model directory is pushed onto `directories_to_merge` — once
per URL, with no deduplication. -/
def process_urls (get : String → Except String HttpResponse)
    (md5 : String → String) (info : String → ToolOutput) :
    List String → World → List String → StepResult
  | [], w, dirsToMerge => .ok w dirsToMerge
  | url :: rest, w, dirsToMerge =>
    match download_url get md5 url w with
    | .error e => .fail e w
    | .ok (w1, filename) =>
      match get_normalized_model_name info filename with
      | .fatal msg => .fatal msg w1
      | .parseFatal => .fatal "parse" w1
      | .ok modelName =>
        let modelDirectory := "database/" ++ modelName
        let w2 : World := { w1 with dirs := create_dir modelDirectory w1.dirs }
        let databaseFile := modelDirectory ++ "/" ++ filename
        if filename ∈ w2.files ∧
            (parentDir databaseFile = "" ∨ parentDir databaseFile ∈ w2.dirs) then
          let w3 : World := { w2 with files := renameFile filename databaseFile w2.files }
          let w4 : World := { w3 with staged := w3.staged ++ [databaseFile] }
          process_urls get md5 info rest w4 (dirsToMerge ++ [modelDirectory])
        else .fail "No such file or directory (os error 2)" w2

/-- Result of the merge loop of `main` (lines 167-170). -/
inductive MergePhase where
  | fatal (msg : String) (w : World)
  | ok (w : World)
deriving DecidableEq, Repr

/-- The merge loop of `main` (lines 167-170): for each entry of
`directories_to_merge` in order — duplicates included — merge the directory
and stage the merged file's path. -/
def merge_dirs (mergeTool : List String → ToolOutput) :
    List String → World → MergePhase
  | [], w => .ok w
  | dir :: rest, w =>
    match merge_results_in_dir mergeTool dir w with
    | .fatal msg => .fatal msg w
    | .ok w1 mergedPath =>
      merge_dirs mergeTool rest { w1 with staged := w1.staged ++ [mergedPath] }

/-- Result of the publish steps of `main` (lines 172-219). -/
inductive PublishResult where
  | fail (msg : String)
  | ok (w : World)
deriving DecidableEq, Repr

/-- The publish steps of `main` (lines 172-219), run unconditionally after the
two loops: resolve HEAD to its commit (the parent), write a commit via the
`"HEAD"` reference — which advances the currently checked-out branch — with
message `Updated {directories_to_merge joined with ", "}`, then create or
force-update the branch `iocost-bot/{issue id}` to the same commit, and push
`+HEAD:refs/heads/iocost-bot/{issue id}` to the `httpsorigin` remote. -/
def publish (context : Context) (dirsToMerge : List String) (w : World) :
    PublishResult :=
  match lookupBranch w.branches w.headBranch with
  | none => .fail "HEAD does not resolve to a commit"
  | some parent =>
    let message := "Updated " ++ String.intercalate ", " dirsToMerge
    let cid := w.nextId
    let c : GitCommit :=
      { id := cid, parent := parent, message := message, stagedPaths := w.staged }
    let branchName := "iocost-bot/" ++ toString context.issue.id
    let refspec := "+HEAD:refs/heads/" ++ branchName
    .ok { w with commits := w.commits ++ [c],
                 branches := (branchName, cid) :: (w.headBranch, cid) :: w.branches,
                 pushes := w.pushes ++ [refspec],
                 nextId := w.nextId + 1 }

/-- Outcome of a whole run of `main`: `exitZero` models
`std::process::exit(0)` (the locked/non-open no-op), `fail` a propagated `Err`
(non-zero exit), `fatal` a `panic!` (non-zero exit), and `ok` a successful run.
Every constructor carries the world as it stood when the run ended. -/
inductive MainResult where
  | exitZero (w : World)
  | fail (msg : String) (w : World)
  | fatal (msg : String) (w : World)
  | ok (w : World)
deriving DecidableEq, Repr

/-- The world a run ended in, regardless of how it ended. -/
def worldOf : MainResult → World
  | .exitZero w => w
  | .fail _ w => w
  | .fatal _ w => w
  | .ok w => w

/-- Did the run end in a `panic!`? -/
def isFatal : MainResult → Bool
  | .fatal _ _ => true
  | _ => false

/-- Model of `main` (lines 138-230).  The steps before `get_urls` (reading the token and
payload from the environment, opening the repository and its index) only load
state and are modelled by the parameters and the initial world.  After
`get_urls`, the per-URL loop runs, then the merge loop, then — with no guard on
the number of accepted URLs — the publish steps. -/
def main (findLinks : String → List String)
    (get : String → Except String HttpResponse) (md5 : String → String)
    (info : String → ToolOutput) (mergeTool : List String → ToolOutput)
    (context : Context) (w0 : World) : MainResult :=
  match get_urls findLinks context with
  | .exitSuccess => .exitZero w0
  | .unhandledEvent eventName action =>
    .fail ("Called for event we do not handle: " ++ eventName ++ " / " ++ action) w0
  | .missingContent =>
    .fatal "Could not obtain the contents of the issue or comment" w0
  | .ok urls =>
    match process_urls get md5 info urls w0 [] with
    | .fail e w => .fail e w
    | .fatal msg w => .fatal msg w
    | .ok w1 dirsToMerge =>
      match merge_dirs mergeTool dirsToMerge w1 with
      | .fatal msg w => .fatal msg w
      | .ok w2 =>
        match publish context dirsToMerge w2 with
        | .fail msg => .fail msg w2
        | .ok w3 => .ok w3

end ImportResults

namespace DownloadBin

/-- An HTTP response as delivered to `download.rs`'s `download_url`, which
reads the body as text (`response.text()`). -/
structure HttpResponse where
  status : Nat
  text : String
deriving DecidableEq, Repr

/-- Create-or-overwrite a file in a plain file set. -/
def insertFile (path : String) (files : List String) : List String :=
  if path ∈ files then files else files ++ [path]

/-- Model of `download_url` from `src/bin/download.rs` (lines 62-77): fetch the URL and
read its body as text; create a fresh temporary directory (modelled by the
fresh path `tmpdir`); compute `filename = result-{md5(text)}.json.gz` and
`path = tmpdir/filename`; write the text to `File::create(filename)` — i.e. to
`filename` in the current working directory, NOT to `path`; return `path`.
The `TempDir` value is dropped when the function returns, which deletes the
temporary directory and everything under it, modelled by filtering out every
file under `tmpdir/`. -/
def download_url (get : String → Except String HttpResponse)
    (md5 : String → String) (tmpdir : String) (url : String)
    (files : List String) : Except String (List String × String) :=
  match get url with
  | .error e => .error e
  | .ok response =>
    let contents := response.text
    let filename := "result-" ++ md5 contents ++ ".json.gz"
    let path := tmpdir ++ "/" ++ filename
    let files1 := insertFile filename files
    let files2 := files1.filter (fun f => !((tmpdir ++ "/").data.isPrefixOf f.data))
    .ok (files2, path)

end DownloadBin

/-!
Concrete scenario used by several claims: an "issues / opened" event on an
open, unlocked issue, an HTTP client that delivers the URL itself as the body
bytes with status 200, a digest that maps the two bodies to `h1` and `h2`, an
external tool whose `info` report names the model "Test Model", and a clean
checkout whose `main` branch points at commit 0.
-/

namespace Scenario

open ImportResults

/-- First accepted URL of the scenario (whitelisted: S3 origin). -/
def u1 : String := "https://iocost-submit.s3.eu-west-1.amazonaws.com/a"

/-- Second accepted URL of the scenario (whitelisted: S3 origin). -/
def u2 : String := "https://iocost-submit.s3.eu-west-1.amazonaws.com/b"

/-- HTTP client that delivers every URL's body as the URL itself, status 200. -/
def get0 : String → Except String ImportResults.HttpResponse :=
  fun u => .ok { status := 200, bytes := u }

/-- HTTP client that delivers a 404 error page for every URL (no transport
error: the response is delivered). -/
def get404 : String → Except String ImportResults.HttpResponse :=
  fun _ => .ok { status := 404, bytes := "<html>not found</html>" }

/-- Digest assigning `h1` to the first scenario body and `h2` to the rest. -/
def md5_0 : String → String :=
  fun s => if s = u1 then "h1" else "h2"

/-- Digest that maps every input to `feedface`. -/
def md5c : String → String := fun _ => "feedface"

/-- External tool whose `info` report is `model: Test Model` for every result
file, with empty stderr. -/
def info0 : String → ToolOutput :=
  fun _ => { status := 0, stdout := "model: Test Model\nrest", stderr := "" }

/-- External tool whose `info` report names a model containing a path
separator. -/
def infoSlash : String → ToolOutput :=
  fun _ => { status := 0, stdout := "model: Some/Model name\nrest", stderr := "" }

/-- External tool for the `merge` subcommand: always succeeds silently. -/
def mt0 : List String → ToolOutput :=
  fun _ => { status := 0, stdout := "", stderr := "" }

/-- External tool whose `info` call succeeds (with the given exit status `e1`)
on the first scenario result file and writes `s` to stderr (with exit status
`e2`) on every other result file. -/
def infoBad (e1 e2 : Nat) (s : String) : String → ToolOutput :=
  fun f =>
    if f = "result-h1.json.gz" then
      { status := e1, stdout := "model: M one\nrest", stderr := "" }
    else { status := e2, stdout := "", stderr := s }

/-- The scenario payload: an "issues / opened" event, issue 7 open and
unlocked, with a body. -/
def ctx0 : Context :=
  { eventName := "issues", action := "opened",
    issue := { id := 7, locked := false, state := "open", body := some "body" },
    commentBody := none }

/-- A payload whose issue is locked. -/
def ctxLocked : Context :=
  { eventName := "issues", action := "opened",
    issue := { id := 7, locked := true, state := "open", body := some "body" },
    commentBody := none }

/-- A payload with an action the pipeline does not handle. -/
def ctxBail : Context :=
  { eventName := "issues", action := "deleted",
    issue := { id := 7, locked := false, state := "open", body := some "body" },
    commentBody := none }

/-- The scenario's clean initial checkout: no result files yet, the
repository's `database` directory present, `main` at commit 0. -/
def w0c : World :=
  { files := [], dirs := ["database"], staged := [], merges := [], commits := [],
    branches := [("main", 0)], headBranch := "main", pushes := [], nextId := 1 }

/-- The model directory both scenario URLs resolve to. -/
def d : String := "database/Test_Model"

/-- Where the first scenario download ends up. -/
def db1 : String := "database/Test_Model/result-h1.json.gz"

/-- Where the second scenario download ends up. -/
def db2 : String := "database/Test_Model/result-h2.json.gz"

/-- The merged artifact of the scenario's model directory. -/
def mp : String := "database/Test_Model/merged-results.json.gz"

end Scenario

namespace ImportResults

/-- Evaluation of the publish steps once HEAD resolves: the commit is appended
with the joined message and the newly staged paths, the ref HEAD points to
(the checked-out branch) and the bot branch both move to the new commit, and
the bot refspec is pushed. -/
theorem publish_eq (context : Context) (dirsToMerge : List String) (w : World)
    (parent : Nat) (hb : lookupBranch w.branches w.headBranch = some parent) :
    publish context dirsToMerge w =
      .ok { w with
        commits := w.commits ++
          [{ id := w.nextId, parent := parent,
             message := "Updated " ++ String.intercalate ", " dirsToMerge,
             stagedPaths := w.staged }],
        branches := ("iocost-bot/" ++ toString context.issue.id, w.nextId) ::
          (w.headBranch, w.nextId) :: w.branches,
        pushes := w.pushes ++
          ["+HEAD:refs/heads/" ++ ("iocost-bot/" ++ toString context.issue.id)],
        nextId := w.nextId + 1 } := by
  unfold publish
  rw [hb]

/-- The URL filtering loop is `List.filter` with the whitelist predicate. -/
theorem extract_urls_eq_filter (links : List String) :
    extract_urls links = links.filter is_url_whitelisted := by
  induction links with
  | nil => rfl
  | cons link rest ih =>
    unfold extract_urls
    by_cases h : is_url_whitelisted link
    · rw [if_pos h, ih, List.filter_cons_of_pos h]
    · rw [if_neg h, ih, List.filter_cons_of_neg h]

/-- A download only adds a file: the git state and the staged list are
untouched. -/
theorem download_url_frame (get : String → Except String HttpResponse)
    (md5 : String → String) (url : String) (w w1 : World) (fn : String)
    (h : download_url get md5 url w = .ok (w1, fn)) :
    w1.commits = w.commits ∧ w1.branches = w.branches ∧
    w1.headBranch = w.headBranch ∧ w1.pushes = w.pushes ∧
    w1.nextId = w.nextId ∧ w1.staged = w.staged := by
  unfold download_url at h
  cases hget : get url with
  | error e => rw [hget] at h; cases h
  | ok response =>
    rw [hget] at h
    injection h with h'
    have hw : w1 =
        { w with files := insertFile ("result-" ++ md5 response.bytes ++ ".json.gz") w.files } :=
      (congrArg Prod.fst h').symm
    subst hw
    simp

/-- The per-URL loop never touches the commits, the branch refs, the
checked-out branch or the pushes. -/
theorem process_urls_frame (get : String → Except String HttpResponse)
    (md5 : String → String) (info : String → ToolOutput) :
    ∀ (urls : List String) (w : World) (dirsToMerge : List String) (w' : World)
      (dirs' : List String),
      process_urls get md5 info urls w dirsToMerge = .ok w' dirs' →
      w'.commits = w.commits ∧ w'.branches = w.branches ∧
      w'.headBranch = w.headBranch ∧ w'.pushes = w.pushes ∧ w'.nextId = w.nextId := by
  intro urls
  induction urls with
  | nil =>
    intro w dirsToMerge w' dirs' h
    unfold process_urls at h
    cases h
    simp
  | cons url rest ih =>
    intro w dirsToMerge w' dirs' h
    unfold process_urls at h
    cases hdl : download_url get md5 url w with
    | error e => rw [hdl] at h; cases h
    | ok pair =>
      obtain ⟨w1, filename⟩ := pair
      rw [hdl] at h
      simp only at h
      obtain ⟨f1, f2, f3, f4, f5, _⟩ := download_url_frame get md5 url w w1 filename hdl
      cases hname : get_normalized_model_name info filename with
      | fatal msg => rw [hname] at h; cases h
      | parseFatal => rw [hname] at h; cases h
      | ok modelName =>
        rw [hname] at h
        simp only at h
        split at h
        · obtain ⟨g1, g2, g3, g4, g5⟩ := ih _ _ _ _ h
          simp only at g1 g2 g3 g4 g5
          exact ⟨g1.trans f1, g2.trans f2, g3.trans f3, g4.trans f4, g5.trans f5⟩
        · cases h

/-- One merge invocation never touches the commits, the branch refs, the
checked-out branch or the pushes. -/
theorem merge_results_in_dir_frame (mergeTool : List String → ToolOutput)
    (dir : String) (w w1 : World) (mergedPath : String)
    (h : merge_results_in_dir mergeTool dir w = .ok w1 mergedPath) :
    w1.commits = w.commits ∧ w1.branches = w.branches ∧
    w1.headBranch = w.headBranch ∧ w1.pushes = w.pushes ∧ w1.nextId = w.nextId := by
  unfold merge_results_in_dir at h
  by_cases hs : (mergeTool (["--result", dir ++ "/merged-results.json.gz", "merge"] ++
      globResults w.files dir)).stderr ≠ ""
  · rw [if_pos hs] at h; cases h
  · rw [if_neg hs] at h
    injection h with h1 h2
    rw [← h1]
    simp

/-- The merge loop never touches the commits, the branch refs, the checked-out
branch or the pushes. -/
theorem merge_dirs_frame (mergeTool : List String → ToolOutput) :
    ∀ (dirs : List String) (w w' : World),
      merge_dirs mergeTool dirs w = .ok w' →
      w'.commits = w.commits ∧ w'.branches = w.branches ∧
      w'.headBranch = w.headBranch ∧ w'.pushes = w.pushes ∧ w'.nextId = w.nextId := by
  intro dirs
  induction dirs with
  | nil =>
    intro w w' h
    unfold merge_dirs at h
    cases h
    simp
  | cons dir rest ih =>
    intro w w' h
    unfold merge_dirs at h
    cases hm : merge_results_in_dir mergeTool dir w with
    | fatal msg => rw [hm] at h; cases h
    | ok w1 mergedPath =>
      rw [hm] at h
      obtain ⟨f1, f2, f3, f4, f5⟩ := merge_results_in_dir_frame mergeTool dir w w1 mergedPath hm
      obtain ⟨g1, g2, g3, g4, g5⟩ := ih _ _ h
      simp only at g1 g2 g3 g4 g5
      exact ⟨g1.trans f1, g2.trans f2, g3.trans f3, g4.trans f4, g5.trans f5⟩

/-- When the two newest branch bindings point at the same commit, the second
name resolves to that commit whether or not the first name shadows it. -/
theorem lookupBranch_two (a b : String) (c : Nat) (rest : List (String × Nat)) :
    lookupBranch ((a, c) :: (b, c) :: rest) b = some c := by
  unfold lookupBranch
  by_cases hab : a = b
  · rw [if_pos hab]
  · rw [if_neg hab]
    unfold lookupBranch
    rw [if_pos rfl]

end ImportResults

open ImportResults Scenario

/-- Claim C1, counterexample.  The spec says that with an empty staged change
set the Publisher must not run at all and an empty commit is never produced.
In the code there is no such guard: on a run whose body contains no accepted
URL (`get_urls` returns the empty list), `main` still creates a commit — with
message "Updated " and no newly staged paths — still creates the bot branch,
and still pushes it. -/
theorem C1_counterexample :
    get_urls (fun _ => []) ctx0 = .ok [] ∧
    ImportResults.main (fun _ => []) get0 md5_0 info0 mt0 ctx0 w0c =
      .ok { files := [], dirs := ["database"], staged := [], merges := [],
            commits := [{ id := 1, parent := 0, message := "Updated ",
                          stagedPaths := [] }],
            branches := [("iocost-bot/7", 1), ("main", 1), ("main", 0)],
            headBranch := "main",
            pushes := ["+HEAD:refs/heads/iocost-bot/7"], nextId := 2 } :=
  ⟨rfl, rfl⟩

/-- Claim C1, amended.  When the staged change set is empty (no URLs were
accepted from the resolved body text), the Publisher stage still runs: a
commit with message "Updated " and no newly staged paths is created on the
current HEAD, the bot branch `iocost-bot/{issue id}` is created or
force-updated to it, and a push of that branch is made — an empty commit is a
possible outcome. -/
theorem C1_theorem (findLinks : String → List String)
    (get : String → Except String ImportResults.HttpResponse)
    (md5 : String → String) (info : String → ToolOutput)
    (mergeTool : List String → ToolOutput) (context : Context) (w0 : World)
    (parent : Nat) (b : String)
    (hlock : context.issue.locked = false)
    (hstate : context.issue.state = "open")
    (haction : context.action = "opened")
    (hbody : context.issue.body = some b)
    (hlinks : findLinks b = [])
    (hb : lookupBranch w0.branches w0.headBranch = some parent) :
    ImportResults.main findLinks get md5 info mergeTool context w0 =
      .ok { w0 with
            commits := w0.commits ++
              [{ id := w0.nextId, parent := parent, message := "Updated ",
                 stagedPaths := w0.staged }],
            branches := ("iocost-bot/" ++ toString context.issue.id, w0.nextId) ::
              (w0.headBranch, w0.nextId) :: w0.branches,
            pushes := w0.pushes ++
              ["+HEAD:refs/heads/" ++ ("iocost-bot/" ++ toString context.issue.id)],
            nextId := w0.nextId + 1 } := by
  have hg : get_urls findLinks context = .ok [] := by
    have h1 : get_urls findLinks context = .ok (extract_urls (findLinks b)) := by
      unfold get_urls
      rw [if_neg (by simp [hlock, hstate]), haction, hbody]
      rfl
    rw [h1, hlinks]
    rfl
  unfold ImportResults.main
  rw [hg]
  show (match publish context [] w0 with
        | PublishResult.fail msg => MainResult.fail msg w0
        | PublishResult.ok w3 => MainResult.ok w3) = _
  rw [publish_eq context [] w0 parent hb]
  rfl

/-- Claim C1, witness: the amended claim at the concrete empty-body scenario. -/
theorem C1_witness :
    ImportResults.main (fun _ => []) get0 md5_0 info0 mt0 ctx0 w0c =
      .ok { w0c with
            commits := w0c.commits ++
              [{ id := w0c.nextId, parent := 0, message := "Updated ",
                 stagedPaths := w0c.staged }],
            branches := ("iocost-bot/" ++ toString ctx0.issue.id, w0c.nextId) ::
              (w0c.headBranch, w0c.nextId) :: w0c.branches,
            pushes := w0c.pushes ++
              ["+HEAD:refs/heads/" ++ ("iocost-bot/" ++ toString ctx0.issue.id)],
            nextId := w0c.nextId + 1 } :=
  C1_theorem (fun _ => []) get0 md5_0 info0 mt0 ctx0 w0c 0 "body"
    rfl rfl rfl rfl rfl rfl

/-- Claim C2, counterexample.  The spec says the merge step is invoked exactly
once per touched model directory.  In the code `directories_to_merge` receives
one entry per accepted URL with no deduplication, so when the two accepted
URLs resolve to the same model name the single touched directory is merged
twice: the final world records two merge invocations for
`database/Test_Model`. -/
theorem C2_counterexample :
    get_urls (fun _ => [u1, u2]) ctx0 = .ok [u1, u2] ∧
    ImportResults.main (fun _ => [u1, u2]) get0 md5_0 info0 mt0 ctx0 w0c =
      .ok { files := [db1, db2, mp], dirs := ["database", d],
            staged := [db1, db2, mp, mp],
            merges := [(mp, [db1, db2]), (mp, [db1, db2])],
            commits := [{ id := 1, parent := 0,
                          message := "Updated database/Test_Model, database/Test_Model",
                          stagedPaths := [db1, db2, mp, mp] }],
            branches := [("iocost-bot/7", 1), ("main", 1), ("main", 0)],
            headBranch := "main",
            pushes := ["+HEAD:refs/heads/iocost-bot/7"], nextId := 2 } :=
  ⟨rfl, rfl⟩

/-- Claim C2, amended.  The merge step is invoked once per accepted URL (not
once per touched model directory), always after all downloads have been
placed.  When two accepted URLs are identified as the same model name, both
result files land in that one model directory and each of the two merge
invocations on it includes both files. -/
theorem C2_theorem (w0 : World) (parent : Nat)
    (hf : w0.files = []) (hd : w0.dirs = ["database"])
    (hb : lookupBranch w0.branches w0.headBranch = some parent) :
    ImportResults.main (fun _ => [u1, u2]) get0 md5_0 info0 mt0 ctx0 w0 =
      .ok { files := [db1, db2, mp],
            dirs := ["database", d],
            staged := (((w0.staged ++ [db1]) ++ [db2]) ++ [mp]) ++ [mp],
            merges := (w0.merges ++ [(mp, [db1, db2])]) ++ [(mp, [db1, db2])],
            commits := w0.commits ++
              [{ id := w0.nextId, parent := parent,
                 message := "Updated database/Test_Model, database/Test_Model",
                 stagedPaths := (((w0.staged ++ [db1]) ++ [db2]) ++ [mp]) ++ [mp] }],
            branches := ("iocost-bot/7", w0.nextId) ::
              (w0.headBranch, w0.nextId) :: w0.branches,
            headBranch := w0.headBranch,
            pushes := w0.pushes ++ ["+HEAD:refs/heads/iocost-bot/7"],
            nextId := w0.nextId + 1 } := by
  obtain ⟨files, dirs, staged, merges, commits, branches, headBranch, pushes, nextId⟩ := w0
  dsimp only at hf hd hb ⊢
  subst hf
  subst hd
  have hstep :
      ImportResults.main (fun _ => [u1, u2]) get0 md5_0 info0 mt0 ctx0
        ⟨[], ["database"], staged, merges, commits, branches, headBranch, pushes, nextId⟩ =
      (match publish ctx0 [d, d]
          ⟨[db1, db2, mp], ["database", d],
           (((staged ++ [db1]) ++ [db2]) ++ [mp]) ++ [mp],
           (merges ++ [(mp, [db1, db2])]) ++ [(mp, [db1, db2])],
           commits, branches, headBranch, pushes, nextId⟩ with
        | PublishResult.fail msg =>
          MainResult.fail msg
            ⟨[db1, db2, mp], ["database", d],
             (((staged ++ [db1]) ++ [db2]) ++ [mp]) ++ [mp],
             (merges ++ [(mp, [db1, db2])]) ++ [(mp, [db1, db2])],
             commits, branches, headBranch, pushes, nextId⟩
        | PublishResult.ok w3 => MainResult.ok w3) := rfl
  rw [hstep, publish_eq ctx0 [d, d] _ parent hb]
  rfl

/-- Claim C2, witness: the amended claim at the concrete clean checkout. -/
theorem C2_witness :
    ImportResults.main (fun _ => [u1, u2]) get0 md5_0 info0 mt0 ctx0 w0c =
      .ok { files := [db1, db2, mp],
            dirs := ["database", d],
            staged := (((w0c.staged ++ [db1]) ++ [db2]) ++ [mp]) ++ [mp],
            merges := (w0c.merges ++ [(mp, [db1, db2])]) ++ [(mp, [db1, db2])],
            commits := w0c.commits ++
              [{ id := w0c.nextId, parent := 0,
                 message := "Updated database/Test_Model, database/Test_Model",
                 stagedPaths := (((w0c.staged ++ [db1]) ++ [db2]) ++ [mp]) ++ [mp] }],
            branches := ("iocost-bot/7", w0c.nextId) ::
              (w0c.headBranch, w0c.nextId) :: w0c.branches,
            headBranch := w0c.headBranch,
            pushes := w0c.pushes ++ ["+HEAD:refs/heads/iocost-bot/7"],
            nextId := w0c.nextId + 1 } :=
  C2_theorem w0c 0 rfl rfl rfl

/-- Claim C3, counterexample.  The spec says a non-success HTTP status never
yields a DownloadedResult.  The code never inspects the status code
(`reqwest::blocking::get` fails only on transport errors and the source never
calls `error_for_status`), so a delivered 404 response still produces a
downloaded result file holding the error page's bytes. -/
theorem C3_counterexample :
    ImportResults.download_url get404 md5c u1 w0c =
      .ok ({ w0c with files := ["result-feedface.json.gz"] },
           "result-feedface.json.gz") :=
  rfl

/-- Claim C3, amended.  For every URL, `download_url` either returns a
DownloadedResult or fails with a fetch error; it fails on any transport error
(the client's error is propagated unchanged), but for any delivered response —
whatever its HTTP status code, success or not — it returns a DownloadedResult
named by the digest of the response body. -/
theorem C3_theorem (get : String → Except String ImportResults.HttpResponse)
    (md5 : String → String) (url : String) (w : World) :
    (∀ e, get url = .error e →
      ImportResults.download_url get md5 url w = .error e) ∧
    (∀ response, get url = .ok response →
      ImportResults.download_url get md5 url w =
        .ok ({ w with
               files := insertFile ("result-" ++ md5 response.bytes ++ ".json.gz") w.files },
             "result-" ++ md5 response.bytes ++ ".json.gz")) := by
  constructor
  · intro e he
    unfold ImportResults.download_url
    rw [he]
  · intro response hr
    unfold ImportResults.download_url
    rw [hr]

/-- Claim C3, witness: the amended claim hits both branches at concrete
inputs — a transport error propagates, and a delivered 404 yields a
DownloadedResult. -/
theorem C3_witness :
    ImportResults.download_url (fun _ => .error "connection refused") md5c u1 w0c =
      .error "connection refused" ∧
    ImportResults.download_url get404 md5c u1 w0c =
      .ok ({ w0c with
             files := insertFile ("result-" ++ md5c "<html>not found</html>" ++ ".json.gz") w0c.files },
           "result-" ++ md5c "<html>not found</html>" ++ ".json.gz") :=
  ⟨(C3_theorem (fun _ => .error "connection refused") md5c u1 w0c).1
      "connection refused" rfl,
   (C3_theorem get404 md5c u1 w0c).2
      { status := 404, bytes := "<html>not found</html>" } rfl⟩

/-- Claim C4, counterexample.  The spec says the model-identification step
fails with InvalidModelName whenever the normalized string contains a path
separator.  The code has no such check: when the external tool reports the
model description "Some/Model name", normalization yields "Some/Model_name",
which contains the path separator, and `get_normalized_model_name`
nevertheless returns it as a success. -/
theorem C4_counterexample :
    get_normalized_model_name infoSlash "result-feedface.json.gz" =
      .ok "Some/Model_name" ∧
    '/' ∈ "Some/Model_name".data :=
  ⟨rfl, by decide⟩

/-- Claim C4, amended.  The model-identification step normalizes the parsed
model description by collapsing internal whitespace runs to single
underscores, and returns the normalized string unconditionally: there is no
path-separator check and no InvalidModelName failure.  When the normalized
name does contain a path separator, the per-URL loop still uses it to form
the directory path `database/{name}`: the silently-discarded `create_dir`
fails because the parent directory is missing, and the subsequent
`fs::rename` of the downloaded file then fails with a generic io error
(ENOENT) that aborts the run — an abort after the name was used, and never an
InvalidModelName. -/
theorem C4_theorem (info : String → ToolOutput) (filename : String) (st : Nat)
    (stdout firstLine rest lbl desc : String)
    (hinfo : info filename = { status := st, stdout := stdout, stderr := "" })
    (h1 : splitOnce stdout "\n" = some (firstLine, rest))
    (h2 : splitOnce firstLine ": " = some (lbl, desc)) :
    get_normalized_model_name info filename = .ok (normalize_model_desc desc) ∧
    ∀ (get : String → Except String ImportResults.HttpResponse)
      (md5 : String → String) (w0 w1 : World) (url : String),
      ImportResults.download_url get md5 url w0 = .ok (w1, filename) →
      parentDir ("database/" ++ normalize_model_desc desc) ≠ "" →
      parentDir ("database/" ++ normalize_model_desc desc) ∉ w1.dirs →
      ("database/" ++ normalize_model_desc desc) ∉ w1.dirs →
      parentDir ("database/" ++ normalize_model_desc desc ++ "/" ++ filename) =
        "database/" ++ normalize_model_desc desc →
      process_urls get md5 info [url] w0 [] =
        .fail "No such file or directory (os error 2)" w1 := by
  have hname : get_normalized_model_name info filename =
      .ok (normalize_model_desc desc) := by
    unfold get_normalized_model_name
    rw [hinfo]
    simp only
    rw [if_neg (by simp)]
    rw [h1]
    simp only
    rw [h2]
  refine ⟨hname, ?_⟩
  intro get md5 w0 w1 url hdl hp1 hp2 hp3 hpd
  have hcd : create_dir ("database/" ++ normalize_model_desc desc) w1.dirs = w1.dirs := by
    unfold create_dir
    rw [if_neg]
    intro hcon
    rcases hcon.1 with h | h
    · exact hp1 h
    · exact hp2 h
  unfold process_urls
  rw [hdl]
  simp only
  rw [hname]
  simp only [hcd]
  split
  · rename_i hcon
    exfalso
    rcases hcon.2 with h | h
    · rw [hpd] at h
      have hdata := congrArg String.data h
      rw [String.data_append] at hdata
      simp at hdata
    · rw [hpd] at h
      exact hp3 h
  · rfl

/-- Claim C4, witness: the amended claim at the slash-reporting tool — the
name "Some/Model_name" is accepted, `database/Some/Model_name` is used as the
directory path, and the run aborts at the rename with ENOENT (parent
directory `database/Some` does not exist) after the download was placed in
the working directory. -/
theorem C4_witness :
    get_normalized_model_name infoSlash "result-feedface.json.gz" =
      .ok (normalize_model_desc "Some/Model name") ∧
    process_urls get404 md5c infoSlash [u1] w0c [] =
      .fail "No such file or directory (os error 2)"
        { w0c with files := insertFile "result-feedface.json.gz" w0c.files } :=
  ⟨(C4_theorem infoSlash "result-feedface.json.gz" 0 "model: Some/Model name\nrest"
      "model: Some/Model name" "rest" "model" "Some/Model name" rfl rfl rfl).1,
   (C4_theorem infoSlash "result-feedface.json.gz" 0 "model: Some/Model name\nrest"
      "model: Some/Model name" "rest" "model" "Some/Model name" rfl rfl rfl).2
     get404 md5c w0c
     { w0c with files := insertFile "result-feedface.json.gz" w0c.files } u1
     rfl (by decide) (by decide) (by decide) rfl⟩

/-- Claim C5, counterexample.  The spec says that whenever the external tool's
"info" invocation writes anything to its error stream the run aborts before
any git staging occurs, with no path added to the index for that run.  With
two accepted URLs where the first is processed cleanly and the second's "info"
call writes to stderr, the run does abort — but the first URL's database file
has already been added to the index. -/
theorem C5_counterexample :
    isFatal (ImportResults.main (fun _ => [u1, u2]) get0 md5_0
      (infoBad 0 0 "boom") mt0 ctx0 w0c) = true ∧
    (worldOf (ImportResults.main (fun _ => [u1, u2]) get0 md5_0
      (infoBad 0 0 "boom") mt0 ctx0 w0c)).staged =
      ["database/M_one/result-h1.json.gz"] :=
  ⟨rfl, rfl⟩

/-- Claim C5, amended.  Whenever the external tool's "info" invocation writes
anything to its error stream, the run aborts fatally regardless of the
subprocess exit codes, before any commit, branch update or push — but not
necessarily before any git staging: files of URLs processed earlier in the
same run have already been added to the index when the abort happens. -/
theorem C5_theorem (e1 e2 : Nat) (s : String) (hs : s ≠ "") :
    ImportResults.main (fun _ => [u1, u2]) get0 md5_0 (infoBad e1 e2 s) mt0 ctx0 w0c =
      .fatal s
        { files := ["database/M_one/result-h1.json.gz", "result-h2.json.gz"],
          dirs := ["database", "database/M_one"],
          staged := ["database/M_one/result-h1.json.gz"],
          merges := [], commits := [], branches := [("main", 0)],
          headBranch := "main", pushes := [], nextId := 1 } := by
  obtain ⟨data⟩ := s
  cases data with
  | nil => exact absurd rfl hs
  | cons c cs => rfl

/-- Claim C5, witness: the amended claim at a concrete stderr text. -/
theorem C5_witness :
    ImportResults.main (fun _ => [u1, u2]) get0 md5_0 (infoBad 0 0 "boom") mt0 ctx0 w0c =
      .fatal "boom"
        { files := ["database/M_one/result-h1.json.gz", "result-h2.json.gz"],
          dirs := ["database", "database/M_one"],
          staged := ["database/M_one/result-h1.json.gz"],
          merges := [], commits := [], branches := [("main", 0)],
          headBranch := "main", pushes := [], nextId := 1 } :=
  C5_theorem 0 0 "boom" (by decide)

/-- Claim C6.  Over the sequence of links the link detector finds in the text
(in order of appearance), the extractor's output contains a URL iff that URL
was detected in the text and starts with one of the allowlist prefixes
(literal, case-sensitive prefix match via `is_url_whitelisted`); the output is
a sublist of the detected sequence, hence preserves order of first appearance;
and every duplicate detected occurrence produces a duplicate output entry (the
multiplicity of every whitelisted URL is preserved exactly). -/
theorem C6_theorem (links : List String) :
    (∀ u, u ∈ extract_urls links ↔ u ∈ links ∧ is_url_whitelisted u = true) ∧
    (extract_urls links).Sublist links ∧
    (∀ u, (extract_urls links).count u =
      if is_url_whitelisted u then links.count u else 0) := by
  rw [extract_urls_eq_filter]
  refine ⟨fun u => ?_, List.filter_sublist links, fun u => ?_⟩
  · rw [List.mem_filter]
  · by_cases h : is_url_whitelisted u
    · rw [if_pos h, List.count_filter h]
    · rw [if_neg h]
      rw [List.count_eq_zero]
      intro hmem
      rw [List.mem_filter] at hmem
      exact h hmem.2

/-- Claim C7.  For an open, unlocked issue the body is resolved by action:
"created" uses the comment body, "opened" the issue body, "edited" the comment
body when the event is an `issue_comment` event and the issue body otherwise;
a missing resolved body aborts (`missingContent` models the source's
`.expect` panic), and every other action value makes `get_urls` return
`unhandledEvent` with the event name and action, which `main` turns into a
failing run (a propagated `Err`, hence a non-zero exit). -/
theorem C7_theorem (findLinks : String → List String) (context : Context)
    (hlock : context.issue.locked = false)
    (hstate : context.issue.state = "open") :
    (context.action = "created" →
      get_urls findLinks context =
        (match context.commentBody with
         | none => UrlsResult.missingContent
         | some body => .ok (extract_urls (findLinks body)))) ∧
    (context.action = "opened" →
      get_urls findLinks context =
        (match context.issue.body with
         | none => UrlsResult.missingContent
         | some body => .ok (extract_urls (findLinks body)))) ∧
    (context.action = "edited" →
      get_urls findLinks context =
        (match (if context.eventName = "issue_comment" then context.commentBody
                else context.issue.body) with
         | none => UrlsResult.missingContent
         | some body => .ok (extract_urls (findLinks body)))) ∧
    (context.action ≠ "created" → context.action ≠ "opened" →
     context.action ≠ "edited" →
      get_urls findLinks context =
        .unhandledEvent context.eventName context.action ∧
      ∀ (get : String → Except String ImportResults.HttpResponse)
        (md5 : String → String) (info : String → ToolOutput)
        (mergeTool : List String → ToolOutput) (w0 : World),
        ImportResults.main findLinks get md5 info mergeTool context w0 =
          .fail ("Called for event we do not handle: " ++
            context.eventName ++ " / " ++ context.action) w0) := by
  have hcond : ¬(context.issue.locked ∨ context.issue.state ≠ "open") := by
    simp [hlock, hstate]
  refine ⟨fun ha => ?_, fun ha => ?_, fun ha => ?_, fun ha hb hc => ?_⟩
  · unfold get_urls
    rw [if_neg hcond, ha]
    cases context.commentBody <;> rfl
  · unfold get_urls
    rw [if_neg hcond, ha]
    cases context.issue.body <;> rfl
  · unfold get_urls
    rw [if_neg hcond, ha]
    by_cases he : context.eventName = "issue_comment"
    · rw [if_pos he]
      simp only [he]
      cases context.commentBody <;> rfl
    · rw [if_neg he]
      simp only [if_neg he]
      cases context.issue.body <;> rfl
  · have hu : get_urls findLinks context =
        .unhandledEvent context.eventName context.action := by
      unfold get_urls
      rw [if_neg hcond]
      have hmatch : (match context.action with
          | "created" => some context.commentBody
          | "opened" => some context.issue.body
          | "edited" =>
            some (if context.eventName = "issue_comment" then context.commentBody
                  else context.issue.body)
          | _ => none) = none := by
        split
        · rename_i h
          exact absurd h ha
        · rename_i h
          exact absurd h hb
        · rename_i h
          exact absurd h hc
        · rfl
      rw [hmatch]
    refine ⟨hu, ?_⟩
    intro get md5 info mergeTool w0
    unfold ImportResults.main
    rw [hu]

/-- Claim C7, witness: the resolution at concrete payloads — the "opened"
branch on the scenario payload, and the fatal branch on an unhandled
"deleted" action. -/
theorem C7_witness :
    get_urls (fun _ => [u1, u2]) ctx0 =
      (match ctx0.issue.body with
       | none => UrlsResult.missingContent
       | some body => .ok (extract_urls ((fun _ => [u1, u2]) body))) ∧
    get_urls (fun _ => []) ctxBail = .unhandledEvent "issues" "deleted" ∧
    ImportResults.main (fun _ => []) get0 md5_0 info0 mt0 ctxBail w0c =
      .fail "Called for event we do not handle: issues / deleted" w0c := by
  refine ⟨(C7_theorem (fun _ => [u1, u2]) ctx0 rfl rfl).2.1 rfl, ?_, ?_⟩
  · exact ((C7_theorem (fun _ => []) ctxBail rfl rfl).2.2.2
      (by decide) (by decide) (by decide)).1
  · exact ((C7_theorem (fun _ => []) ctxBail rfl rfl).2.2.2
      (by decide) (by decide) (by decide)).2 get0 md5_0 info0 mt0 w0c

/-- Claim C8.  For every payload whose issue is locked or whose state is not
"open", the run terminates successfully (the source's `std::process::exit(0)`,
modelled by `exitZero`) and produces no output: the world is returned exactly
as it was — no file downloaded or created, no directory created, no staging,
no commit, no branch update and no push. -/
theorem C8_theorem (findLinks : String → List String)
    (get : String → Except String ImportResults.HttpResponse)
    (md5 : String → String) (info : String → ToolOutput)
    (mergeTool : List String → ToolOutput) (context : Context) (w0 : World)
    (h : context.issue.locked = true ∨ context.issue.state ≠ "open") :
    get_urls findLinks context = .exitSuccess ∧
    ImportResults.main findLinks get md5 info mergeTool context w0 =
      .exitZero w0 := by
  have hg : get_urls findLinks context = .exitSuccess := by
    unfold get_urls
    rw [if_pos h]
  refine ⟨hg, ?_⟩
  unfold ImportResults.main
  rw [hg]

/-- Claim C8, witness: the locked-issue payload exits 0 with the world
untouched. -/
theorem C8_witness :
    get_urls (fun _ => [u1, u2]) ctxLocked = .exitSuccess ∧
    ImportResults.main (fun _ => [u1, u2]) get0 md5_0 info0 mt0 ctxLocked w0c =
      .exitZero w0c :=
  C8_theorem (fun _ => [u1, u2]) get0 md5_0 info0 mt0 ctxLocked w0c (Or.inl rfl)

/-- Claim C9.  Whenever a run succeeds, its commit was written via the
repository's HEAD reference: the currently checked-out branch (unchanged by
the run) is itself advanced to the new commit, and the dedicated bot branch
`iocost-bot/{issue id}` points at that same commit. -/
theorem C9_theorem (findLinks : String → List String)
    (get : String → Except String ImportResults.HttpResponse)
    (md5 : String → String) (info : String → ToolOutput)
    (mergeTool : List String → ToolOutput) (context : Context) (w0 w' : World)
    (h : ImportResults.main findLinks get md5 info mergeTool context w0 = .ok w') :
    w'.headBranch = w0.headBranch ∧
    ∃ c : GitCommit, w'.commits = w0.commits ++ [c] ∧
      lookupBranch w'.branches w'.headBranch = some c.id ∧
      lookupBranch w'.branches ("iocost-bot/" ++ toString context.issue.id) =
        some c.id := by
  unfold ImportResults.main at h
  cases hu : get_urls findLinks context with
  | exitSuccess => rw [hu] at h; cases h
  | unhandledEvent en ac => rw [hu] at h; cases h
  | missingContent => rw [hu] at h; cases h
  | ok urls =>
    rw [hu] at h
    simp only at h
    cases hp : process_urls get md5 info urls w0 [] with
    | fail e w => rw [hp] at h; cases h
    | fatal msg w => rw [hp] at h; cases h
    | ok w1 dirsToMerge =>
      rw [hp] at h
      simp only at h
      obtain ⟨p1, p2, p3, p4, p5⟩ :=
        process_urls_frame get md5 info urls w0 [] w1 dirsToMerge hp
      cases hm : merge_dirs mergeTool dirsToMerge w1 with
      | fatal msg w => rw [hm] at h; cases h
      | ok w2 =>
        rw [hm] at h
        simp only at h
        obtain ⟨m1, m2, m3, m4, m5⟩ :=
          merge_dirs_frame mergeTool dirsToMerge w1 w2 hm
        unfold publish at h
        cases hl : lookupBranch w2.branches w2.headBranch with
        | none => rw [hl] at h; cases h
        | some parent =>
          rw [hl] at h
          simp only at h
          injection h with h'
          subst h'
          constructor
          · simp [m3, p3]
          · exact ⟨{ id := w2.nextId, parent := parent,
                     message := "Updated " ++ String.intercalate ", " dirsToMerge,
                     stagedPaths := w2.staged },
                   by simp [m1, p1],
                   by simp only; rw [lookupBranch_two],
                   by simp only; unfold lookupBranch; rw [if_pos rfl]⟩

/-- Claim C9, witness: on the concrete empty-body run, the checked-out branch
`main` and the bot branch `iocost-bot/7` both end at the newly created
commit. -/
theorem C9_witness :
    ({ files := [], dirs := ["database"], staged := [], merges := [],
       commits := [{ id := 1, parent := 0, message := "Updated ",
                     stagedPaths := [] }],
       branches := [("iocost-bot/7", 1), ("main", 1), ("main", 0)],
       headBranch := "main",
       pushes := ["+HEAD:refs/heads/iocost-bot/7"], nextId := 2 } : World).headBranch =
      w0c.headBranch ∧
    ∃ c : GitCommit,
      ({ files := [], dirs := ["database"], staged := [], merges := [],
         commits := [{ id := 1, parent := 0, message := "Updated ",
                       stagedPaths := [] }],
         branches := [("iocost-bot/7", 1), ("main", 1), ("main", 0)],
         headBranch := "main",
         pushes := ["+HEAD:refs/heads/iocost-bot/7"], nextId := 2 } : World).commits =
        w0c.commits ++ [c] ∧
      lookupBranch [("iocost-bot/7", 1), ("main", 1), ("main", 0)] "main" =
        some c.id ∧
      lookupBranch [("iocost-bot/7", 1), ("main", 1), ("main", 0)]
        ("iocost-bot/" ++ toString ctx0.issue.id) = some c.id :=
  C9_theorem (fun _ => []) get0 md5_0 info0 mt0 ctx0 w0c
    { files := [], dirs := ["database"], staged := [], merges := [],
      commits := [{ id := 1, parent := 0, message := "Updated ",
                    stagedPaths := [] }],
      branches := [("iocost-bot/7", 1), ("main", 1), ("main", 0)],
      headBranch := "main",
      pushes := ["+HEAD:refs/heads/iocost-bot/7"], nextId := 2 } rfl

/-- Claim C10.  In the `download.rs` variant, for every successful download,
`download_url` writes the fetched content to `result-{hash}.json.gz` in the
current working directory, but returns a path under the freshly created
temporary directory, which is deleted when the function returns: the returned
path is different from the path written, the file at the returned path does
not exist in the resulting file set, and (as long as the written name does not
itself sit under the temporary directory, which a fresh temporary directory
guarantees) the written file does exist. -/
theorem C10_theorem (get : String → Except String DownloadBin.HttpResponse)
    (md5 : String → String) (tmpdir url : String) (files : List String)
    (response : DownloadBin.HttpResponse) (hget : get url = .ok response) :
    DownloadBin.download_url get md5 tmpdir url files =
      .ok ((DownloadBin.insertFile ("result-" ++ md5 response.text ++ ".json.gz") files).filter
             (fun f => !((tmpdir ++ "/").data.isPrefixOf f.data)),
           tmpdir ++ "/" ++ ("result-" ++ md5 response.text ++ ".json.gz")) ∧
    (tmpdir ++ "/" ++ ("result-" ++ md5 response.text ++ ".json.gz")) ∉
      ((DownloadBin.insertFile ("result-" ++ md5 response.text ++ ".json.gz") files).filter
        (fun f => !((tmpdir ++ "/").data.isPrefixOf f.data))) ∧
    tmpdir ++ "/" ++ ("result-" ++ md5 response.text ++ ".json.gz") ≠
      "result-" ++ md5 response.text ++ ".json.gz" ∧
    (((tmpdir ++ "/").data.isPrefixOf
        ("result-" ++ md5 response.text ++ ".json.gz").data) = false →
      ("result-" ++ md5 response.text ++ ".json.gz") ∈
        ((DownloadBin.insertFile ("result-" ++ md5 response.text ++ ".json.gz") files).filter
          (fun f => !((tmpdir ++ "/").data.isPrefixOf f.data)))) := by
  refine ⟨?_, ?_, ?_, ?_⟩
  · unfold DownloadBin.download_url
    rw [hget]
  · intro hmem
    rw [List.mem_filter] at hmem
    have hpref : ((tmpdir ++ "/").data.isPrefixOf
        (tmpdir ++ "/" ++ ("result-" ++ md5 response.text ++ ".json.gz")).data) = true := by
      rw [List.isPrefixOf_iff_prefix]
      rw [show tmpdir ++ "/" ++ ("result-" ++ md5 response.text ++ ".json.gz") =
          (tmpdir ++ "/") ++ ("result-" ++ md5 response.text ++ ".json.gz") from rfl]
      rw [String.data_append]
      exact List.prefix_append _ _
    rw [hpref] at hmem
    simp at hmem
  · intro heq
    have hlen := congrArg (fun s => s.data.length) heq
    simp only [String.data_append, List.length_append, List.length_singleton] at hlen
    omega
  · intro hnp
    rw [List.mem_filter]
    constructor
    · unfold DownloadBin.insertFile
      split
    
      · assumption
      · exact List.mem_append_right _ (List.mem_singleton_self _)
    · show (!((tmpdir ++ "/").data.isPrefixOf
          ("result-" ++ md5 response.text ++ ".json.gz").data)) = true
      rw [hnp]
      rfl

/-- Claim C10, witness: a concrete successful download — the content lands at
`result-feedface.json.gz` in the working directory while the returned path
names a nonexistent file under the deleted temporary directory. -/
theorem C10_witness :
    DownloadBin.download_url (fun _ => .ok { status := 200, text := "data" })
      (fun _ => "feedface") "/tmp/iocost-benchmarkAbC" "u" [] =
      .ok ((DownloadBin.insertFile ("result-" ++ (fun (_ : String) => "feedface") "data" ++ ".json.gz") []).filter
             (fun f => !(("/tmp/iocost-benchmarkAbC" ++ "/").data.isPrefixOf f.data)),
           "/tmp/iocost-benchmarkAbC" ++ "/" ++
             ("result-" ++ (fun (_ : String) => "feedface") "data" ++ ".json.gz")) ∧
    ("/tmp/iocost-benchmarkAbC" ++ "/" ++
      ("result-" ++ (fun (_ : String) => "feedface") "data" ++ ".json.gz")) ∉
      ((DownloadBin.insertFile ("result-" ++ (fun (_ : String) => "feedface") "data" ++ ".json.gz") []).filter
        (fun f => !(("/tmp/iocost-benchmarkAbC" ++ "/").data.isPrefixOf f.data))) ∧
    "/tmp/iocost-benchmarkAbC" ++ "/" ++
      ("result-" ++ (fun (_ : String) => "feedface") "data" ++ ".json.gz") ≠
      "result-" ++ (fun (_ : String) => "feedface") "data" ++ ".json.gz" ∧
    ((("/tmp/iocost-benchmarkAbC" ++ "/").data.isPrefixOf
        ("result-" ++ (fun (_ : String) => "feedface") "data" ++ ".json.gz").data) = false →
      ("result-" ++ (fun (_ : String) => "feedface") "data" ++ ".json.gz") ∈
        ((DownloadBin.insertFile ("result-" ++ (fun (_ : String) => "feedface") "data" ++ ".json.gz") []).filter
          (fun f => !(("/tmp/iocost-benchmarkAbC" ++ "/").data.isPrefixOf f.data)))) :=
  C10_theorem (fun _ => .ok { status := 200, text := "data" }) (fun _ => "feedface")
    "/tmp/iocost-benchmarkAbC" "u" [] { status := 200, text := "data" } rfl
